import Mathlib

/-!
Verification of the catalog-to-field rendering pipeline of
`galsimcat.py` (WeakLensingDeblending repository).

The per-entry loop body of `main` is embedded as pure functions over the
real numbers: catalog columns become an `Entry` record, the command-line
configuration becomes a `Config` record, and the chain of rejection tests
becomes an `Except`-valued function `processEntry`.  The external GalSim
rendering engine, the overlap restriction of an image, and the Poisson
noise generator are abstract parameters (they are outside collaborators),
while every numeric formula of the loop body is translated literally from
the source.
-/

open Real

/-- Integer pixel rectangle, modelling `galsim.BoundsI`. -/
structure Bounds where
  xmin : ℤ
  xmax : ℤ
  ymin : ℤ
  ymax : ℤ
deriving DecidableEq, Repr

/-- A bounds is defined (non-empty) when both intervals are non-degenerate,
as in GalSim, where an empty intersection yields an undefined bounds. -/
def Bounds.defined (b : Bounds) : Bool :=
  b.xmin ≤ b.xmax && b.ymin ≤ b.ymax

/-- Intersection of two pixel rectangles, modelling `bounds1 & bounds2`. -/
def Bounds.inter (a b : Bounds) : Bounds :=
  ⟨max a.xmin b.xmin, min a.xmax b.xmax, max a.ymin b.ymin, min a.ymax b.ymax⟩

/-- Pixel count of a bounds, modelling `BoundsI.area()`: zero for an
undefined (empty) bounds. -/
def Bounds.area (b : Bounds) : ℤ :=
  if b.defined then (b.xmax - b.xmin + 1) * (b.ymax - b.ymin + 1) else 0

/-- The rendering parameters handed to `createSource` (the `params`
dictionary built in the loop body). -/
structure Params where
  flux : ℝ
  xc : ℝ
  yc : ℝ
  hlr : ℝ
  q : ℝ
  beta : ℝ
  g1 : ℝ
  g2 : ℝ

/-- The five source parameters varied by the finite-difference loop
(the `variations` list in the source). -/
inductive ParamName where
  | xc | yc | hlr | g1 | g2
deriving DecidableEq, Repr

/-- Reading one entry of the `params` dictionary (`params[pname]`). -/
def getP (p : Params) : ParamName → ℝ
  | .xc => p.xc
  | .yc => p.yc
  | .hlr => p.hlr
  | .g1 => p.g1
  | .g2 => p.g2

/-- Writing one entry of a copy of the `params` dictionary
(`newparams[pname] = v` after `newparams = params.copy()`). -/
def setP (p : Params) : ParamName → ℝ → Params
  | .xc, v => { p with xc := v }
  | .yc, v => { p with yc := v }
  | .hlr, v => { p with hlr := v }
  | .g1, v => { p with g1 := v }
  | .g2, v => { p with g2 := v }

/-- The command-line configuration of `main` (`args`).  `derivs` and
`derivsOrder` model the `--partials` flag and its order option. -/
structure Config where
  output : String
  x_center : ℝ
  y_center : ℝ
  width : ℕ
  height : ℕ
  margin : ℝ
  pixel_scale : ℝ
  psf_fwhm : ℝ
  psf_beta : ℝ
  flux_norm : ℝ
  nvisits : ℕ
  sky_level : ℝ
  g1 : ℝ
  g2 : ℝ
  derivs : Bool
  derivsOrder : ℕ

/-- The catalog columns consumed by the loop body, one input line:
columns 1, 2 (sky position in degrees), 7 (disk half-light radius in
arcsec), 9 (position angle in degrees), 17, 19 (major/minor axis lengths
in arcsec), 22, 23 (AB magnitudes in the r and i bands). -/
structure Entry where
  ra_deg : ℝ
  dec_deg : ℝ
  hlr_d : ℝ
  pa_deg : ℝ
  a_d : ℝ
  b_d : ℝ
  r_ab : ℝ
  i_ab : ℝ

/-- Which rejection test of the per-entry chain fired (each `continue`
statement of the loop body). -/
inductive RejectReason where
  | outsideMargin
  | lowFlux
  | badHLR
  | belowIsophote
  | noOverlap
deriving DecidableEq, Repr

/-- `twopi = 2*math.pi`. -/
noncomputable def twopi : ℝ := 2 * Real.pi

/-- `deg2rad = math.pi/180`. -/
noncomputable def deg2rad : ℝ := Real.pi / 180

/-- `deg2arcsec = 3600`. -/
def deg2arcsec : ℝ := 3600

/-- `arcmin2arcsec = 60`. -/
def arcmin2arcsec : ℝ := 60

/-- `RAmin = (args.x_center - 0.5*args.width)*args.pixel_scale`. -/
noncomputable def RAmin (cfg : Config) : ℝ :=
  (cfg.x_center - 0.5 * (cfg.width : ℝ)) * cfg.pixel_scale

/-- `RAmax = (args.x_center + 0.5*args.width)*args.pixel_scale`. -/
noncomputable def RAmax (cfg : Config) : ℝ :=
  (cfg.x_center + 0.5 * (cfg.width : ℝ)) * cfg.pixel_scale

/-- `DECmin = (args.y_center - 0.5*args.height)*args.pixel_scale`. -/
noncomputable def DECmin (cfg : Config) : ℝ :=
  (cfg.y_center - 0.5 * (cfg.height : ℝ)) * cfg.pixel_scale

/-- `DECmax = (args.y_center + 0.5*args.height)*args.pixel_scale`. -/
noncomputable def DECmax (cfg : Config) : ℝ :=
  (cfg.y_center + 0.5 * (cfg.height : ℝ)) * cfg.pixel_scale

/-- `margin = args.margin*arcmin2arcsec` (arcmins to arcsecs). -/
noncomputable def marginSec (cfg : Config) : ℝ := cfg.margin * arcmin2arcsec

/-- `fcut = 2.0`: surface-brightness isophote cutoff in ADU per pixel. -/
def fcut : ℝ := 2.0

/-- `f0 = fcut/(args.pixel_scale*args.pixel_scale)`. -/
noncomputable def f0 (cfg : Config) : ℝ :=
  fcut / (cfg.pixel_scale * cfg.pixel_scale)

/-- `r0psf = 0.5*args.psf_fwhm/math.sqrt(math.pow(2.,1./args.psf_beta)-1)`. -/
noncomputable def r0psf (cfg : Config) : ℝ :=
  0.5 * cfg.psf_fwhm / Real.sqrt ((2 : ℝ) ^ ((1 : ℝ) / cfg.psf_beta) - 1)

/-- `cpsf = math.pi*f0*r0psf*r0psf/(args.psf_beta-1.)`. -/
noncomputable def cpsf (cfg : Config) : ℝ :=
  Real.pi * f0 cfg * r0psf cfg * r0psf cfg / (cfg.psf_beta - 1)

/-- `RA = float(cols[1])*deg2arcsec`. -/
noncomputable def RA (e : Entry) : ℝ := e.ra_deg * deg2arcsec

/-- `DEC = float(cols[2])*deg2arcsec`. -/
noncomputable def DEC (e : Entry) : ℝ := e.dec_deg * deg2arcsec

/-- `flux = args.flux_norm*math.pow(10,24-i_ab)`. -/
noncomputable def flux0 (cfg : Config) (e : Entry) : ℝ :=
  cfg.flux_norm * (10 : ℝ) ^ ((24 : ℝ) - e.i_ab)

/-- `q_d = b_d/a_d`: sheared ellipse aspect ratio. -/
noncomputable def q_d (e : Entry) : ℝ := e.b_d / e.a_d

/-- `pa_d = pa_d*deg2rad`: position angle converted to radians. -/
noncomputable def paRad (e : Entry) : ℝ := e.pa_deg * deg2rad

/-- `r_scale = hlr_d/1.67835`: half-light radius to exponential scale
radius. -/
noncomputable def rScale (e : Entry) : ℝ := e.hlr_d / 1.67835

/-- `g = (1-q_d)/(1+q_d)`. -/
noncomputable def gOf (e : Entry) : ℝ := (1 - q_d e) / (1 + q_d e)

/-- `gp = g*math.cos(2*pa_d)`. -/
noncomputable def gpOf (e : Entry) : ℝ := gOf e * Real.cos (2 * paRad e)

/-- `gx = g*math.sin(2*pa_d)`. -/
noncomputable def gxOf (e : Entry) : ℝ := gOf e * Real.sin (2 * paRad e)

/-- `detM = 1 - gp*gp - gx*gx`. -/
noncomputable def detMOf (e : Entry) : ℝ :=
  1 - gpOf e * gpOf e - gxOf e * gxOf e

/-- `x = twopi*r_scale*r_scale*f0/(flux*detM)`: argument of the isophote
logarithm. -/
noncomputable def xIso (cfg : Config) (e : Entry) : ℝ :=
  twopi * rScale e * rScale e * f0 cfg / (flux0 cfg e * detMOf e)

/-- `rcut = -r_scale*math.log(x)`: isophote-cut radius. -/
noncomputable def rcutOf (cfg : Config) (e : Entry) : ℝ :=
  -rScale e * Real.log (xIso cfg e)

/-- `width = rcut*math.sqrt(((1+gp)*(1+gp)+gx*gx)/detM)`: half width in
arcsecs before PSF padding. -/
noncomputable def halfW0 (cfg : Config) (e : Entry) : ℝ :=
  rcutOf cfg e *
    Real.sqrt (((1 + gpOf e) * (1 + gpOf e) + gxOf e * gxOf e) / detMOf e)

/-- `height = rcut*math.sqrt(((1-gp)*(1-gp)+gx*gx)/detM)`: half height in
arcsecs before PSF padding. -/
noncomputable def halfH0 (cfg : Config) (e : Entry) : ℝ :=
  rcutOf cfg e *
    Real.sqrt (((1 - gpOf e) * (1 - gpOf e) + gxOf e * gxOf e) / detMOf e)

/-- `arg = math.pow(cpsf/flux,-1./args.psf_beta) - 1`, written with
`Real.rpow`, which agrees with `math.pow` on the domain
`0 < cpsf/flux`; outside that domain the source's `math.pow` call does
not return a value but raises `ValueError` (see `mathPowRaises`), so on
that part of its domain this function is an extension, not the
program's behavior. -/
noncomputable def psfArg (cfg : Config) (e : Entry) : ℝ :=
  (cpsf cfg / flux0 cfg e) ^ (-(1 : ℝ) / cfg.psf_beta) - 1

/-- The domain errors of CPython's `math.pow(x, y)`, as called by the
padding computation `math.pow(cpsf/flux,-1./args.psf_beta)`: a zero
base with a negative exponent, or a negative base with a non-integral
exponent, raise `ValueError` instead of returning a value. -/
def mathPowRaises (x y : ℝ) : Prop :=
  (x = 0 ∧ y < 0) ∨ (x < 0 ∧ ¬ ∃ n : ℤ, y = (n : ℝ))

/-- `rpad = r0psf*math.sqrt(arg) if arg > 0 else 0`: PSF padding radius. -/
noncomputable def rpadOf (cfg : Config) (e : Entry) : ℝ :=
  if 0 < psfArg cfg e then r0psf cfg * Real.sqrt (psfArg cfg e) else 0

/-- `width += rpad`: padded half width. -/
noncomputable def halfW (cfg : Config) (e : Entry) : ℝ :=
  halfW0 cfg e + rpadOf cfg e

/-- `height += rpad`: padded half height. -/
noncomputable def halfH (cfg : Config) (e : Entry) : ℝ :=
  halfH0 cfg e + rpadOf cfg e

/-- `flux = 2*args.nvisits*flux`: flux scaled to visits (1 visit = 2
exposures). -/
noncomputable def fluxScaled (cfg : Config) (e : Entry) : ℝ :=
  2 * (cfg.nvisits : ℝ) * flux0 cfg e

/-- `xoffset = (RA - RAmin)/args.pixel_scale`. -/
noncomputable def xoffsetOf (cfg : Config) (e : Entry) : ℝ :=
  (RA e - RAmin cfg) / cfg.pixel_scale

/-- `yoffset = (DEC - DECmin)/args.pixel_scale`. -/
noncomputable def yoffsetOf (cfg : Config) (e : Entry) : ℝ :=
  (DEC e - DECmin cfg) / cfg.pixel_scale

/-- `xpixels = int(math.ceil(xoffset))`: pixel containing the source
center, bottom-left field pixel being (1,1). -/
noncomputable def xpixelsOf (cfg : Config) (e : Entry) : ℤ :=
  ⌈xoffsetOf cfg e⌉

/-- `ypixels = int(math.ceil(yoffset))`. -/
noncomputable def ypixelsOf (cfg : Config) (e : Entry) : ℤ :=
  ⌈yoffsetOf cfg e⌉

/-- `xhalf = int(math.ceil(width/args.pixel_scale))`: stamp half size in
pixels. -/
noncomputable def xhalfOf (cfg : Config) (e : Entry) : ℤ :=
  ⌈halfW cfg e / cfg.pixel_scale⌉

/-- `yhalf = int(math.ceil(height/args.pixel_scale))`. -/
noncomputable def yhalfOf (cfg : Config) (e : Entry) : ℤ :=
  ⌈halfH cfg e / cfg.pixel_scale⌉

/-- `bbox = galsim.BoundsI(xpixels-xhalf,xpixels+xhalf,ypixels-yhalf,ypixels+yhalf)`. -/
noncomputable def bboxOf (cfg : Config) (e : Entry) : Bounds :=
  ⟨xpixelsOf cfg e - xhalfOf cfg e, xpixelsOf cfg e + xhalfOf cfg e,
   ypixelsOf cfg e - yhalfOf cfg e, ypixelsOf cfg e + yhalfOf cfg e⟩

/-- Bounds of `field = galsim.ImageD(args.width,args.height)`: pixels
(1,1) through (width,height). -/
def fieldBounds (cfg : Config) : Bounds :=
  ⟨1, (cfg.width : ℤ), 1, (cfg.height : ℤ)⟩

/-- `xshift = (xoffset - (xpixels-0.5))*args.pixel_scale`: sub-pixel
shift in arcsecs of the source center relative to the center of pixel
`(xpixels,ypixels)`. -/
noncomputable def xshiftOf (cfg : Config) (e : Entry) : ℝ :=
  (xoffsetOf cfg e - ((xpixelsOf cfg e : ℝ) - 0.5)) * cfg.pixel_scale

/-- `yshift = (yoffset - (ypixels-0.5))*args.pixel_scale`. -/
noncomputable def yshiftOf (cfg : Config) (e : Entry) : ℝ :=
  (yoffsetOf cfg e - ((ypixelsOf cfg e : ℝ) - 0.5)) * cfg.pixel_scale

/-- The `params` dictionary of nominal source parameters built for an
accepted entry. -/
noncomputable def paramsOf (cfg : Config) (e : Entry) : Params :=
  { flux := fluxScaled cfg e, xc := xshiftOf cfg e, yc := yshiftOf cfg e,
    hlr := e.hlr_d, q := q_d e, beta := paRad e,
    g1 := cfg.g1, g2 := cfg.g2 }

/-- Rejection test (a): `RA < RAmin-margin or RA > RAmax+margin or
DEC < DECmin-margin or DEC > DECmax+margin`. -/
noncomputable def condOutside (cfg : Config) (e : Entry) : Prop :=
  RA e < RAmin cfg - marginSec cfg ∨ RA e > RAmax cfg + marginSec cfg ∨
  DEC e < DECmin cfg - marginSec cfg ∨ DEC e > DECmax cfg + marginSec cfg

/-- Rejection test (b): `flux < 0.5*fcut`. -/
noncomputable def condLowFlux (cfg : Config) (e : Entry) : Prop :=
  flux0 cfg e < 0.5 * fcut

/-- Rejection test (c): `hlr_d <= 0`. -/
noncomputable def condBadHLR (e : Entry) : Prop := e.hlr_d ≤ 0

/-- Rejection test (d): `rcut <= 0`. -/
noncomputable def condBelowIso (cfg : Config) (e : Entry) : Prop :=
  rcutOf cfg e ≤ 0

/-- Rejection test (e): `(bbox & field.bounds).area() == 0`. -/
noncomputable def condNoOverlap (cfg : Config) (e : Entry) : Prop :=
  ((bboxOf cfg e).inter (fieldBounds cfg)).area = 0

noncomputable instance (cfg : Config) (e : Entry) :
    Decidable (condOutside cfg e) := by
  unfold condOutside; exact inferInstance

noncomputable instance (cfg : Config) (e : Entry) :
    Decidable (condLowFlux cfg e) := by
  unfold condLowFlux; exact inferInstance

noncomputable instance (e : Entry) : Decidable (condBadHLR e) := by
  unfold condBadHLR; exact inferInstance

noncomputable instance (cfg : Config) (e : Entry) :
    Decidable (condBelowIso cfg e) := by
  unfold condBelowIso; exact inferInstance

noncomputable instance (cfg : Config) (e : Entry) :
    Decidable (condNoOverlap cfg e) := by
  unfold condNoOverlap; exact inferInstance

/-- The data produced for one accepted entry: the nominal `params`
dictionary, the stamp bounding box, the datacube of stamps appended to
the HDU list, and the contribution `nominal[overlap]` added to the field
image. -/
structure StampResult (E : Type) where
  params : Params
  bbox : Bounds
  cube : List E
  contrib : E

/-- The finite-difference coefficient table `fdCoefs` selected by
`args.partials_order` (the program aborts for any other order before the
loop starts, so other orders map to the empty table). -/
noncomputable def fdCoefs : ℕ → List ℝ
  | 1 => [1 / 2]
  | 2 => [2 / 3, -1 / 12]
  | 3 => [3 / 4, -3 / 20, 1 / 60]
  | 4 => [4 / 5, -1 / 5, 4 / 105, -1 / 280]
  | _ => []

/-- The inner finite-difference loop for one varied parameter: starting
from an empty image, for `step in range(order)` accumulate
`partial += (fdCoefs[step]/delta)*(plus - minus)` where `plus` and
`minus` are renders at `params[pname] ± (step+1)*delta`. -/
noncomputable def fdImage {E : Type} [AddCommGroup E] [Module ℝ E]
    (render : Params → E) (p : Params) (n : ParamName) (delta : ℝ)
    (order : ℕ) : E :=
  (List.range order).foldl
    (fun acc step =>
      acc + ((fdCoefs order).getD step 0 / delta) •
        (render (setP p n (getP p n + ((step : ℝ) + 1) * delta)) -
         render (setP p n (getP p n - ((step : ℝ) + 1) * delta))))
    0

/-- The parameter settings rendered by the inner finite-difference loop,
in call order: for each `step in range(order)`, first the positive then
the negative variation stamp. -/
def fdRenderList (p : Params) (n : ParamName) (delta : ℝ)
    (order : ℕ) : List Params :=
  (List.range order).foldl
    (fun (acc : List Params) (step : ℕ) =>
      acc ++ [setP p n (getP p n + ((step : ℝ) + 1) * delta),
              setP p n (getP p n - ((step : ℝ) + 1) * delta)])
    []

/-- The ordered `variations` list of (parameter, step size) pairs:
`[('xc',pixel_scale/3), ('yc',pixel_scale/3), ('hlr',0.05*hlr_d),
('g1',0.03), ('g2',0.03)]`. -/
noncomputable def variations (cfg : Config) (p : Params) :
    List (ParamName × ℝ) :=
  [(.xc, cfg.pixel_scale / 3), (.yc, cfg.pixel_scale / 3),
   (.hlr, 0.05 * p.hlr), (.g1, 0.03), (.g2, 0.03)]

/-- The datacube of stamps saved for one accepted entry:
`[nopsf, nominal]` followed, when partial derivatives are requested, by
one finite-difference image per varied parameter; every derivative render
uses `renderPsf`, the PSF-convolved renderer (`createStamp(...,psf,...)`). -/
noncomputable def stampCube {E : Type} [AddCommGroup E] [Module ℝ E]
    (renderNoPsf renderPsf : Params → Bounds → E)
    (cfg : Config) (p : Params) (b : Bounds) : List E :=
  [renderNoPsf p b, renderPsf p b] ++
    (if cfg.derivs then
      (variations cfg p).map
        (fun v => fdImage (fun np => renderPsf np b) p v.1 v.2 cfg.derivsOrder)
    else [])

/-- The result built for an entry passing all five tests. -/
noncomputable def acceptResult {E : Type} [AddCommGroup E] [Module ℝ E]
    (renderNoPsf renderPsf : Params → Bounds → E)
    (restrict : Bounds → E → E) (cfg : Config) (e : Entry) :
    StampResult E :=
  { params := paramsOf cfg e,
    bbox := bboxOf cfg e,
    cube := stampCube renderNoPsf renderPsf cfg (paramsOf cfg e) (bboxOf cfg e),
    contrib := restrict ((bboxOf cfg e).inter (fieldBounds cfg))
      (renderPsf (paramsOf cfg e) (bboxOf cfg e)) }

/-- The body of the catalog loop of `main` for one entry: the five
rejection tests in source order, each `continue` reported as an error
with its reason; a surviving entry is rendered into its stamps and the
restriction of its nominal (PSF) stamp to the overlap with the field is
its contribution to the field image.  `renderNoPsf`/`renderPsf` abstract
`createStamp` without/with the PSF, `restrict` abstracts `image[overlap]`. -/
noncomputable def processEntry {E : Type} [AddCommGroup E] [Module ℝ E]
    (renderNoPsf renderPsf : Params → Bounds → E)
    (restrict : Bounds → E → E) (cfg : Config) (e : Entry) :
    Except RejectReason (StampResult E) :=
  if condOutside cfg e then .error .outsideMargin
  else if condLowFlux cfg e then .error .lowFlux
  else if condBadHLR e then .error .badHLR
  else if condBelowIso cfg e then .error .belowIsophote
  else if condNoOverlap cfg e then .error .noOverlap
  else .ok (acceptResult renderNoPsf renderPsf restrict cfg e)

/-- The final field image: the sum of the field contributions of the
accepted entries (`field[overlap] += nominal[overlap]`), starting from
the empty image. -/
noncomputable def finalField {E : Type} [AddCommGroup E] [Module ℝ E]
    (renderNoPsf renderPsf : Params → Bounds → E)
    (restrict : Bounds → E → E) (cfg : Config) (cat : List Entry) : E :=
  cat.foldl
    (fun fld e =>
      match processEntry renderNoPsf renderPsf restrict cfg e with
      | .ok r => fld + r.contrib
      | .error _ => fld)
    0

/-- The stamp datacubes appended to the HDU list, one per accepted
entry, in catalog order. -/
noncomputable def stampCubes {E : Type} [AddCommGroup E] [Module ℝ E]
    (renderNoPsf renderPsf : Params → Bounds → E)
    (restrict : Bounds → E → E) (cfg : Config) (cat : List Entry) :
    List (List E) :=
  cat.filterMap
    (fun e =>
      match processEntry renderNoPsf renderPsf restrict cfg e with
      | .ok r => some r.cube
      | .error _ => none)

/-- One file written by the pipeline epilogue. -/
inductive WriteEvent (E : Type) where
  | fieldFile : String → E → WriteEvent E
  | stampsFile : String → List (List E) → WriteEvent E

/-- True exactly for a field-image write. -/
def WriteEvent.isFieldWrite {E : Type} : WriteEvent E → Bool
  | .fieldFile _ _ => true
  | .stampsFile _ _ => false

/-- Seed selection of `galsim.BaseDeviate`: an explicit seed argument is
used verbatim; with no argument the deviate would draw a fresh seed from
the ambient randomness of the process. -/
def deviateSeed (explicitSeed : Option ℕ) (ambient : ℕ) : ℕ :=
  match explicitSeed with
  | some s => s
  | none => ambient

/-- The file writes performed after the catalog loop, in order: the
noiseless field image; when `args.sky_level > 0`, the field image again
after noise from `galsim.PoissonNoise(galsim.BaseDeviate(123),
sky_level = 2*args.nvisits*args.sky_level)` is added; finally the stamp
datacubes.  `noiseModel` abstracts the external noise generator as a
function of (seed, sky level, image); `ambient` is the ambient process
randomness that an unseeded deviate would consume — the source seeds its
deviate with the literal constant `123`. -/
noncomputable def pipelineWrites {E : Type} [AddCommGroup E] [Module ℝ E]
    (renderNoPsf renderPsf : Params → Bounds → E)
    (restrict : Bounds → E → E) (noiseModel : ℕ → ℝ → E → E)
    (cfg : Config) (cat : List Entry) (ambient : ℕ) : List (WriteEvent E) :=
  [.fieldFile (cfg.output ++ "_field.fits")
      (finalField renderNoPsf renderPsf restrict cfg cat)] ++
  (if 0 < cfg.sky_level then
    [.fieldFile (cfg.output ++ "_noise.fits")
        (noiseModel (deviateSeed (some 123) ambient)
          (2 * (cfg.nvisits : ℝ) * cfg.sky_level)
          (finalField renderNoPsf renderPsf restrict cfg cat))]
  else []) ++
  [.stampsFile (cfg.output ++ "_stamps.fits")
      (stampCubes renderNoPsf renderPsf restrict cfg cat)]

/-- A concrete configuration: 4x4-pixel field centered at pixel
coordinates (2,2), pixel scale 10 arcsec, no margin, PSF of zero width
(a configuration at which the source's padding step computes
`math.pow(0.0, -1/3)` and raises `ValueError`), unit flux
normalization, one visit, no sky, derivatives off. -/
noncomputable def cfgEx : Config :=
  { output := "out", x_center := 2, y_center := 2, width := 4, height := 4,
    margin := 0, pixel_scale := 10, psf_fwhm := 0, psf_beta := 3,
    flux_norm := 1, nvisits := 1, sky_level := 0, g1 := 0, g2 := 0,
    derivs := false, derivsOrder := 1 }

/-- A concrete catalog entry: position (20,20) arcsec, circular disk of
half-light radius 1.67835 arcsec, i-band magnitude 24 (so its flux is
exactly 1 ADU = half the cutoff `fcut = 2`). -/
noncomputable def eEx : Entry :=
  { ra_deg := 1 / 180, dec_deg := 1 / 180, hlr_d := 1.67835, pa_deg := 0,
    a_d := 1, b_d := 1, r_ab := 24, i_ab := 24 }

/-- `cfgEx` with a PSF of fwhm 20 arcsec: at the entry `eEx` the
padding base `cpsf/flux` is positive, so the source's `math.pow` call
evaluates normally (the padding comes out zero because `cpsf ≥ 1`), and
the entry is accepted end to end. -/
noncomputable def cfgF : Config := { cfgEx with psf_fwhm := 20 }

/-- The stamp bounding box computed for `eEx` under `cfgF`. -/
def bEx : Bounds := ⟨1, 3, 1, 3⟩

/-- The nominal render parameters computed for `eEx` under `cfgF`. -/
noncomputable def pEx : Params :=
  { flux := 2, xc := 5, yc := 5, hlr := 1.67835, q := 1, beta := 0,
    g1 := 0, g2 := 0 }

/-- `cfgF` with derivatives enabled at order 2. -/
noncomputable def cfgP : Config := { cfgF with derivs := true, derivsOrder := 2 }

/-- `cfgF` with a positive sky level. -/
noncomputable def cfgN : Config := { cfgF with sky_level := 1 }

/-- `cfgF` with a zero flux normalization (so every computed flux is 0). -/
noncomputable def cfg0 : Config := { cfgF with flux_norm := 0 }

/-- A trivial concrete renderer (every stamp is the zero image over ℝ). -/
def zeroRender : Params → Bounds → ℝ := fun _ _ => 0

/-- A trivial concrete overlap restriction (the identity). -/
def idRestrict : Bounds → ℝ → ℝ := fun _ x => x

/-- A trivial concrete noise generator (adds nothing). -/
def zeroNoise : ℕ → ℝ → ℝ → ℝ := fun _ _ x => x

/-- The stamp result produced for `eEx` under `cfgF` with the trivial
renderer. -/
noncomputable def resEx : StampResult ℝ :=
  { params := pEx, bbox := bEx, cube := [0, 0], contrib := 0 }

lemma RA_ex : RA eEx = 20 := by
  unfold RA eEx deg2arcsec; norm_num

lemma DEC_ex : DEC eEx = 20 := by
  unfold DEC eEx deg2arcsec; norm_num

lemma RAmin_ex : RAmin cfgEx = 0 := by
  unfold RAmin cfgEx; norm_num

lemma RAmax_ex : RAmax cfgEx = 40 := by
  unfold RAmax cfgEx; norm_num

lemma DECmin_ex : DECmin cfgEx = 0 := by
  unfold DECmin cfgEx; norm_num

lemma DECmax_ex : DECmax cfgEx = 40 := by
  unfold DECmax cfgEx; norm_num

lemma marginSec_ex : marginSec cfgEx = 0 := by
  unfold marginSec cfgEx arcmin2arcsec; norm_num

lemma flux0_ex : flux0 cfgEx eEx = 1 := by
  unfold flux0 cfgEx eEx
  norm_num

lemma q_d_ex : q_d eEx = 1 := by
  unfold q_d eEx; norm_num

lemma paRad_ex : paRad eEx = 0 := by
  unfold paRad eEx; norm_num

lemma rScale_ex : rScale eEx = 1 := by
  unfold rScale eEx; norm_num

lemma gOf_ex : gOf eEx = 0 := by
  unfold gOf; rw [q_d_ex]; norm_num

lemma gpOf_ex : gpOf eEx = 0 := by
  unfold gpOf; rw [gOf_ex, zero_mul]

lemma gxOf_ex : gxOf eEx = 0 := by
  unfold gxOf; rw [gOf_ex, zero_mul]

lemma detMOf_ex : detMOf eEx = 1 := by
  unfold detMOf; rw [gpOf_ex, gxOf_ex]; norm_num

lemma f0_ex : f0 cfgEx = 1 / 50 := by
  unfold f0 cfgEx fcut; norm_num

lemma xIso_ex : xIso cfgEx eEx = Real.pi / 25 := by
  unfold xIso twopi
  rw [rScale_ex, f0_ex, flux0_ex, detMOf_ex]
  ring

lemma rcut_ex : rcutOf cfgEx eEx = -Real.log (Real.pi / 25) := by
  unfold rcutOf
  rw [rScale_ex, xIso_ex]
  ring

lemma rcut_ex_pos : 0 < rcutOf cfgEx eEx := by
  rw [rcut_ex, neg_pos]
  apply Real.log_neg
  · positivity
  · nlinarith [Real.pi_lt_d2]

lemma rcut_ex_le : rcutOf cfgEx eEx ≤ 10 := by
  rw [rcut_ex, neg_le]
  rw [Real.le_log_iff_exp_le (by positivity)]
  calc Real.exp (-10) = (Real.exp 10)⁻¹ := Real.exp_neg 10
    _ ≤ 11⁻¹ := by
        apply inv_anti₀ (by norm_num)
        linarith [Real.add_one_le_exp (10 : ℝ)]
    _ ≤ Real.pi / 25 := by
        rw [inv_eq_one_div, div_le_div_iff₀ (by norm_num) (by norm_num)]
        nlinarith [Real.pi_gt_d6]

lemma halfW0_ex : halfW0 cfgEx eEx = rcutOf cfgEx eEx := by
  unfold halfW0
  rw [gpOf_ex, gxOf_ex, detMOf_ex]
  norm_num

lemma halfH0_ex : halfH0 cfgEx eEx = rcutOf cfgEx eEx := by
  unfold halfH0
  rw [gpOf_ex, gxOf_ex, detMOf_ex]
  norm_num

lemma r0psf_ex : r0psf cfgEx = 0 := by
  unfold r0psf cfgEx; norm_num

lemma cpsf_ex : cpsf cfgEx = 0 := by
  unfold cpsf; rw [r0psf_ex]; ring

lemma xoffset_ex : xoffsetOf cfgEx eEx = 2 := by
  unfold xoffsetOf
  rw [RA_ex, RAmin_ex]
  show (20 - 0) / cfgEx.pixel_scale = 2
  unfold cfgEx; norm_num

lemma yoffset_ex : yoffsetOf cfgEx eEx = 2 := by
  unfold yoffsetOf
  rw [DEC_ex, DECmin_ex]
  show (20 - 0) / cfgEx.pixel_scale = 2
  unfold cfgEx; norm_num

lemma xpixels_ex : xpixelsOf cfgEx eEx = 2 := by
  unfold xpixelsOf
  rw [xoffset_ex]
  norm_num

lemma ypixels_ex : ypixelsOf cfgEx eEx = 2 := by
  unfold ypixelsOf
  rw [yoffset_ex]
  norm_num

lemma fieldBounds_ex : fieldBounds cfgEx = ⟨1, 4, 1, 4⟩ := by
  unfold fieldBounds cfgEx
  norm_num

lemma not_condOutside_ex : ¬ condOutside cfgEx eEx := by
  unfold condOutside
  rw [RA_ex, DEC_ex, RAmin_ex, RAmax_ex, DECmin_ex, DECmax_ex, marginSec_ex]
  norm_num

lemma not_condLowFlux_ex : ¬ condLowFlux cfgEx eEx := by
  unfold condLowFlux fcut
  rw [flux0_ex]
  norm_num

lemma not_condBadHLR_ex : ¬ condBadHLR eEx := by
  unfold condBadHLR eEx
  norm_num

lemma not_condBelowIso_ex : ¬ condBelowIso cfgEx eEx := by
  unfold condBelowIso
  exact not_le.mpr rcut_ex_pos

lemma fluxScaled_ex : fluxScaled cfgEx eEx = 2 := by
  unfold fluxScaled
  rw [flux0_ex]
  show 2 * ((1 : ℕ) : ℝ) * 1 = 2
  norm_num

lemma xshift_ex : xshiftOf cfgEx eEx = 5 := by
  unfold xshiftOf
  rw [xoffset_ex, xpixels_ex]
  show (2 - ((2 : ℝ) - 0.5)) * cfgEx.pixel_scale = 5
  have hps : cfgEx.pixel_scale = 10 := rfl
  rw [hps]; norm_num

lemma yshift_ex : yshiftOf cfgEx eEx = 5 := by
  unfold yshiftOf
  rw [yoffset_ex, ypixels_ex]
  show (2 - ((2 : ℝ) - 0.5)) * cfgEx.pixel_scale = 5
  have hps : cfgEx.pixel_scale = 10 := rfl
  rw [hps]; norm_num

lemma params_ex : paramsOf cfgEx eEx = pEx := by
  unfold paramsOf pEx
  rw [fluxScaled_ex, xshift_ex, yshift_ex, q_d_ex, paRad_ex]
  rfl

lemma two_rpow_third_gt_one : 1 < (2 : ℝ) ^ ((1 : ℝ) / 3) := by
  have h : (2 : ℝ) ^ (0 : ℝ) < (2 : ℝ) ^ ((1 : ℝ) / 3) :=
    Real.rpow_lt_rpow_of_exponent_lt (by norm_num) (by norm_num)
  rwa [Real.rpow_zero] at h

lemma two_rpow_third_lt_two : (2 : ℝ) ^ ((1 : ℝ) / 3) < 2 := by
  have h : (2 : ℝ) ^ ((1 : ℝ) / 3) < (2 : ℝ) ^ (1 : ℝ) :=
    Real.rpow_lt_rpow_of_exponent_lt (by norm_num) (by norm_num)
  rwa [Real.rpow_one] at h

lemma flux0_exF : flux0 cfgF eEx = 1 := flux0_ex

lemma f0_exF : f0 cfgF = 1 / 50 := f0_ex

lemma rcut_exF_pos : 0 < rcutOf cfgF eEx := rcut_ex_pos

lemma rcut_exF_le : rcutOf cfgF eEx ≤ 10 := rcut_ex_le

lemma halfW0_exF : halfW0 cfgF eEx = rcutOf cfgF eEx := halfW0_ex

lemma halfH0_exF : halfH0 cfgF eEx = rcutOf cfgF eEx := halfH0_ex

lemma xpixels_exF : xpixelsOf cfgF eEx = 2 := xpixels_ex

lemma ypixels_exF : ypixelsOf cfgF eEx = 2 := ypixels_ex

lemma not_condOutside_exF : ¬ condOutside cfgF eEx := not_condOutside_ex

lemma not_condLowFlux_exF : ¬ condLowFlux cfgF eEx := not_condLowFlux_ex

lemma not_condBelowIso_exF : ¬ condBelowIso cfgF eEx := not_condBelowIso_ex

lemma params_exF : paramsOf cfgF eEx = pEx := params_ex

lemma fieldBounds_exF : fieldBounds cfgF = ⟨1, 4, 1, 4⟩ := fieldBounds_ex

lemma r0psf_exF : r0psf cfgF =
    10 / Real.sqrt ((2 : ℝ) ^ ((1 : ℝ) / 3) - 1) := by
  unfold r0psf
  rw [show cfgF.psf_fwhm = (20 : ℝ) from rfl,
      show cfgF.psf_beta = (3 : ℝ) from rfl]
  norm_num

lemma cpsf_exF : cpsf cfgF = Real.pi / ((2 : ℝ) ^ ((1 : ℝ) / 3) - 1) := by
  have hc : 0 < (2 : ℝ) ^ ((1 : ℝ) / 3) - 1 := by
    linarith [two_rpow_third_gt_one]
  unfold cpsf
  rw [f0_exF, r0psf_exF, show cfgF.psf_beta = (3 : ℝ) from rfl]
  set s := Real.sqrt ((2 : ℝ) ^ ((1 : ℝ) / 3) - 1) with hsdef
  have hs : s * s = (2 : ℝ) ^ ((1 : ℝ) / 3) - 1 :=
    Real.mul_self_sqrt (le_of_lt hc)
  have hsn : s ≠ 0 := by
    intro h0
    rw [h0, mul_zero] at hs
    exact absurd hs.symm (ne_of_gt hc)
  rw [← hs]
  field_simp
  ring

lemma cpsf_div_flux_exF : cpsf cfgF / flux0 cfgF eEx =
    Real.pi / ((2 : ℝ) ^ ((1 : ℝ) / 3) - 1) := by
  rw [cpsf_exF, flux0_exF, div_one]

lemma cpsf_div_flux_exF_pos : 0 < cpsf cfgF / flux0 cfgF eEx := by
  rw [cpsf_div_flux_exF]
  exact div_pos Real.pi_pos (by linarith [two_rpow_third_gt_one])

lemma cpsf_div_flux_exF_ge_one : 1 ≤ cpsf cfgF / flux0 cfgF eEx := by
  rw [cpsf_div_flux_exF]
  rw [one_le_div (by linarith [two_rpow_third_gt_one])]
  linarith [two_rpow_third_lt_two, Real.pi_gt_d6]

lemma psfArg_exF_nonpos : psfArg cfgF eEx ≤ 0 := by
  unfold psfArg
  have h1 : (cpsf cfgF / flux0 cfgF eEx) ^ (-(1 : ℝ) / cfgF.psf_beta) ≤ 1 := by
    apply Real.rpow_le_one_of_one_le_of_nonpos cpsf_div_flux_exF_ge_one
    rw [show cfgF.psf_beta = (3 : ℝ) from rfl]
    norm_num
  linarith

lemma rpad_exF : rpadOf cfgF eEx = 0 := by
  unfold rpadOf
  rw [if_neg (not_lt.mpr psfArg_exF_nonpos)]

lemma halfW_exF : halfW cfgF eEx = rcutOf cfgF eEx := by
  unfold halfW
  rw [halfW0_exF, rpad_exF, add_zero]

lemma halfH_exF : halfH cfgF eEx = rcutOf cfgF eEx := by
  unfold halfH
  rw [halfH0_exF, rpad_exF, add_zero]

lemma xhalf_exF : xhalfOf cfgF eEx = 1 := by
  unfold xhalfOf
  rw [halfW_exF]
  have hps : cfgF.pixel_scale = 10 := rfl
  rw [hps, Int.ceil_eq_iff]
  have h1 := rcut_exF_pos
  have h2 := rcut_exF_le
  constructor
  · push_cast
    linarith
  · push_cast
    linarith

lemma yhalf_exF : yhalfOf cfgF eEx = 1 := by
  unfold yhalfOf
  rw [halfH_exF]
  have hps : cfgF.pixel_scale = 10 := rfl
  rw [hps, Int.ceil_eq_iff]
  have h1 := rcut_exF_pos
  have h2 := rcut_exF_le
  constructor
  · push_cast
    linarith
  · push_cast
    linarith

lemma bbox_exF : bboxOf cfgF eEx = bEx := by
  unfold bboxOf bEx
  rw [xpixels_exF, ypixels_exF, xhalf_exF, yhalf_exF]
  norm_num

lemma not_condNoOverlap_exF : ¬ condNoOverlap cfgF eEx := by
  unfold condNoOverlap
  rw [bbox_exF, fieldBounds_exF]
  decide

/-- `processEntry` evaluated at the concrete example: under `cfgF`
(PSF fwhm 20, so the padding base `cpsf/flux` is positive, inside the
domain of `math.pow`, and the padding evaluates to zero) the entry
passes all five tests and is rendered, for any choice of renderers. -/
lemma processEntry_exF {E : Type} [AddCommGroup E] [Module ℝ E]
    (renderNoPsf renderPsf : Params → Bounds → E)
    (restrict : Bounds → E → E) :
    processEntry renderNoPsf renderPsf restrict cfgF eEx =
      .ok { params := pEx, bbox := bEx,
            cube := [renderNoPsf pEx bEx, renderPsf pEx bEx],
            contrib := restrict (bEx.inter ⟨1, 4, 1, 4⟩) (renderPsf pEx bEx) } := by
  unfold processEntry
  rw [if_neg not_condOutside_exF, if_neg not_condLowFlux_exF,
      if_neg not_condBadHLR_ex, if_neg not_condBelowIso_exF,
      if_neg not_condNoOverlap_exF]
  unfold acceptResult
  rw [params_exF, bbox_exF, fieldBounds_exF]
  unfold stampCube
  have hd : cfgF.derivs = false := rfl
  rw [hd]
  simp

/-- C1: for every catalog entry, the eligibility chain tests the five
rejection conditions in exactly the order (a) outside margin, (b) low
flux, (c) non-positive half-light radius, (d) non-positive isophote-cut
radius, (e) no stamp/field overlap, stopping at the first condition that
fires, and only an entry passing all five tests is rendered and
composited into the field. -/
theorem eligibility_filter_precedence {E : Type} [AddCommGroup E]
    [Module ℝ E] (rNo rPsf : Params → Bounds → E)
    (restrict : Bounds → E → E) (cfg : Config) (e : Entry) :
    (processEntry rNo rPsf restrict cfg e = .error .outsideMargin ↔
      condOutside cfg e)
    ∧ (processEntry rNo rPsf restrict cfg e = .error .lowFlux ↔
      ¬ condOutside cfg e ∧ condLowFlux cfg e)
    ∧ (processEntry rNo rPsf restrict cfg e = .error .badHLR ↔
      ¬ condOutside cfg e ∧ ¬ condLowFlux cfg e ∧ condBadHLR e)
    ∧ (processEntry rNo rPsf restrict cfg e = .error .belowIsophote ↔
      ¬ condOutside cfg e ∧ ¬ condLowFlux cfg e ∧ ¬ condBadHLR e ∧
      condBelowIso cfg e)
    ∧ (processEntry rNo rPsf restrict cfg e = .error .noOverlap ↔
      ¬ condOutside cfg e ∧ ¬ condLowFlux cfg e ∧ ¬ condBadHLR e ∧
      ¬ condBelowIso cfg e ∧ condNoOverlap cfg e)
    ∧ (processEntry rNo rPsf restrict cfg e =
        .ok (acceptResult rNo rPsf restrict cfg e) ↔
      ¬ condOutside cfg e ∧ ¬ condLowFlux cfg e ∧ ¬ condBadHLR e ∧
      ¬ condBelowIso cfg e ∧ ¬ condNoOverlap cfg e) := by
  by_cases hA : condOutside cfg e <;>
    by_cases hB : condLowFlux cfg e <;>
      by_cases hC : condBadHLR e <;>
        by_cases hD : condBelowIso cfg e <;>
          by_cases hE : condNoOverlap cfg e <;>
            simp [processEntry, hA, hB, hC, hD, hE]

/-- Witness for C1: the concrete entry `eEx` passes all five tests
under `cfgF` and is rendered. -/
theorem eligibility_filter_precedence_witness :
    processEntry zeroRender zeroRender idRestrict cfgF eEx =
      .ok (acceptResult zeroRender zeroRender idRestrict cfgF eEx) :=
  (eligibility_filter_precedence zeroRender zeroRender idRestrict cfgF
    eEx).2.2.2.2.2.mpr
    ⟨not_condOutside_exF, not_condLowFlux_exF, not_condBadHLR_ex,
     not_condBelowIso_exF, not_condNoOverlap_exF⟩

/-- C8: for every axis ratio `q ∈ (0,1]` and every position angle, the
shear parameterization `g = (1-q)/(1+q)`, `gp = g·cos(2·PA)`,
`gx = g·sin(2·PA)` yields `detM = 1 - gp² - gx² > 0`. -/
theorem detM_positive (e : Entry) (h0 : 0 < q_d e) (h1 : q_d e ≤ 1) :
    0 < detMOf e := by
  have hg0 : 0 ≤ gOf e := by
    unfold gOf
    apply div_nonneg <;> linarith
  have hg1 : gOf e < 1 := by
    unfold gOf
    rw [div_lt_one (by linarith)]
    linarith
  have key : detMOf e = 1 - gOf e ^ 2 := by
    unfold detMOf gpOf gxOf
    have hcs := Real.sin_sq_add_cos_sq (2 * paRad e)
    linear_combination (-(gOf e ^ 2)) * hcs
  rw [key]
  nlinarith

/-- Witness for C8: the circular entry `eEx` has `q = 1` and positive
`detM`. -/
theorem detM_positive_witness : 0 < detMOf eEx :=
  detM_positive eEx (by rw [q_d_ex]; norm_num) (le_of_eq q_d_ex)

/-- C10: the pipeline output is independent of the ambient process
randomness: the photon-noise deviate is seeded with the literal constant
123, so two runs on the same catalog and configuration write identical
files. -/
theorem pipeline_deterministic {E : Type} [AddCommGroup E] [Module ℝ E]
    (rNo rPsf : Params → Bounds → E) (restrict : Bounds → E → E)
    (noiseModel : ℕ → ℝ → E → E) (cfg : Config) (cat : List Entry)
    (ambient1 ambient2 : ℕ) :
    pipelineWrites rNo rPsf restrict noiseModel cfg cat ambient1 =
      pipelineWrites rNo rPsf restrict noiseModel cfg cat ambient2
    ∧ deviateSeed (some 123) ambient1 = 123 :=
  ⟨rfl, rfl⟩

/-- Counterexample to C7: at `cfgEx` (PSF fwhm 0) the claim's
"fwhm = 0 gives zero padding" scenario never happens in the source:
`cpsf = 0`, so the padding step `math.pow(cpsf/flux, -1/psf_beta)` is a
zero base raised to a negative exponent, which raises `ValueError`
instead of producing a padding value. -/
theorem psf_padding_counterexample :
    cfgEx.psf_fwhm = 0
    ∧ cpsf cfgEx / flux0 cfgEx eEx = 0
    ∧ -(1 : ℝ) / cfgEx.psf_beta < 0
    ∧ mathPowRaises (cpsf cfgEx / flux0 cfgEx eEx)
        (-(1 : ℝ) / cfgEx.psf_beta) := by
  have hbase : cpsf cfgEx / flux0 cfgEx eEx = 0 := by
    rw [cpsf_ex, zero_div]
  have hexp : -(1 : ℝ) / cfgEx.psf_beta < 0 := by
    rw [show cfgEx.psf_beta = (3 : ℝ) from rfl]
    norm_num
  exact ⟨rfl, hbase, hexp, Or.inl ⟨hbase, hexp⟩⟩

/-- C7 (amended): on the domain where `math.pow` is defined
(`0 < cpsf/flux`), the PSF padding follows the Moffat flux/cutoff
relation `arg = (cpsf/flux)^(-1/beta) - 1`, is `r0psf·sqrt(arg)` when
`arg > 0` and zero when `arg ≤ 0`, and is added to both half width and
half height.  When the PSF fwhm is 0 no padding is computed at all:
`cpsf = 0`, so the `math.pow` call raises `ValueError`.  A circular
source (`q = 1`) has `detM = 1` and both pre-padding half extents equal
to `rcut`; since the padding is added to both sides, its stamp is
square whenever the padding step evaluates. -/
theorem psf_padding_amended (cfg : Config) (e : Entry) :
    (0 < cpsf cfg / flux0 cfg e →
      psfArg cfg e = (cpsf cfg / flux0 cfg e) ^ (-(1 : ℝ) / cfg.psf_beta) - 1
      ∧ (0 < psfArg cfg e →
          rpadOf cfg e = r0psf cfg * Real.sqrt (psfArg cfg e))
      ∧ (psfArg cfg e ≤ 0 → rpadOf cfg e = 0)
      ∧ halfW cfg e = halfW0 cfg e + rpadOf cfg e
      ∧ halfH cfg e = halfH0 cfg e + rpadOf cfg e)
    ∧ (cfg.psf_fwhm = 0 → 0 < cfg.psf_beta →
        cpsf cfg = 0 ∧
        mathPowRaises (cpsf cfg / flux0 cfg e) (-(1 : ℝ) / cfg.psf_beta))
    ∧ (q_d e = 1 →
        detMOf e = 1 ∧ halfW0 cfg e = rcutOf cfg e ∧
        halfH0 cfg e = rcutOf cfg e)
    ∧ (q_d e = 1 → 0 < cpsf cfg / flux0 cfg e →
        xhalfOf cfg e = yhalfOf cfg e) := by
  have hcirc : q_d e = 1 →
      detMOf e = 1 ∧ halfW0 cfg e = rcutOf cfg e ∧
      halfH0 cfg e = rcutOf cfg e := by
    intro hq1
    have hg : gOf e = 0 := by
      unfold gOf
      rw [hq1]
      norm_num
    have hgp : gpOf e = 0 := by unfold gpOf; rw [hg, zero_mul]
    have hgx : gxOf e = 0 := by unfold gxOf; rw [hg, zero_mul]
    have hdet : detMOf e = 1 := by unfold detMOf; rw [hgp, hgx]; norm_num
    refine ⟨hdet, ?_, ?_⟩
    · unfold halfW0
      rw [hgp, hgx, hdet]
      norm_num
    · unfold halfH0
      rw [hgp, hgx, hdet]
      norm_num
  refine ⟨?_, ?_, hcirc, ?_⟩
  · intro _
    refine ⟨rfl, ?_, ?_, rfl, rfl⟩
    · intro h
      unfold rpadOf
      rw [if_pos h]
    · intro h
      unfold rpadOf
      rw [if_neg (not_lt.mpr h)]
  · intro hfw hb
    have hr : r0psf cfg = 0 := by
      unfold r0psf
      rw [hfw]
      norm_num
    have hc : cpsf cfg = 0 := by
      unfold cpsf
      rw [hr]
      ring
    have hexp : -(1 : ℝ) / cfg.psf_beta < 0 := by
      rw [neg_div]
      have hb1 : (0 : ℝ) < 1 / cfg.psf_beta := by positivity
      linarith
    exact ⟨hc, Or.inl ⟨by rw [hc, zero_div], hexp⟩⟩
  · intro hq1 _
    unfold xhalfOf yhalfOf halfW halfH
    rw [(hcirc hq1).2.1, (hcirc hq1).2.2]

/-- Witness for C7 (amended): at `cfgF` (fwhm 20) the padding base is
positive — inside the domain of `math.pow` — and the padding argument
is non-positive, so the padding is zero. -/
theorem psf_padding_amended_witness : rpadOf cfgF eEx = 0 :=
  ((psf_padding_amended cfgF eEx).1 cpsf_div_flux_exF_pos).2.2.1
    psfArg_exF_nonpos

/-- C2: for an entry with positive flux and axis ratio in (0,1] that
reaches the geometry step, the solver computes `scale = hlr/1.67835`,
`g = (1-q)/(1+q)`, `gp = g·cos(2·PA)`, `gx = g·sin(2·PA)`,
`detM = 1 - gp² - gx²`, and
`rcut = -scale·ln(2π·scale²·f0/(flux·detM))`; if `rcut ≤ 0` the entry is
rejected, otherwise the pre-padding half extents are
`rcut·sqrt(((1±gp)²+gx²)/detM)`. -/
theorem geometry_solver_formulas {E : Type} [AddCommGroup E] [Module ℝ E]
    (rNo rPsf : Params → Bounds → E) (restrict : Bounds → E → E)
    (cfg : Config) (e : Entry)
    (hq0 : 0 < q_d e) (hq1 : q_d e ≤ 1) (hf : 0 < flux0 cfg e)
    (hA : ¬ condOutside cfg e) (hB : ¬ condLowFlux cfg e)
    (hC : ¬ condBadHLR e) :
    rScale e = e.hlr_d / 1.67835
    ∧ gOf e = (1 - q_d e) / (1 + q_d e)
    ∧ gpOf e = gOf e * Real.cos (2 * paRad e)
    ∧ gxOf e = gOf e * Real.sin (2 * paRad e)
    ∧ detMOf e = 1 - gpOf e ^ 2 - gxOf e ^ 2
    ∧ rcutOf cfg e = -(rScale e) *
        Real.log (2 * Real.pi * rScale e ^ 2 * f0 cfg /
          (flux0 cfg e * detMOf e))
    ∧ (rcutOf cfg e ≤ 0 →
        processEntry rNo rPsf restrict cfg e = .error .belowIsophote)
    ∧ (0 < rcutOf cfg e →
        halfW0 cfg e = rcutOf cfg e *
          Real.sqrt (((1 + gpOf e) ^ 2 + gxOf e ^ 2) / detMOf e)
        ∧ halfH0 cfg e = rcutOf cfg e *
          Real.sqrt (((1 - gpOf e) ^ 2 + gxOf e ^ 2) / detMOf e)) := by
  refine ⟨rfl, rfl, rfl, rfl, by unfold detMOf; ring, ?_, ?_, ?_⟩
  · have harg : xIso cfg e =
        2 * Real.pi * rScale e ^ 2 * f0 cfg / (flux0 cfg e * detMOf e) := by
      unfold xIso twopi
      ring
    unfold rcutOf
    rw [harg]
  · intro h
    unfold processEntry
    rw [if_neg hA, if_neg hB, if_neg hC, if_pos (show condBelowIso cfg e from h)]
  · intro _
    constructor
    · unfold halfW0
      congr 2
      ring
    · unfold halfH0
      congr 2
      ring

/-- Witness for C2: the geometry formulas evaluated at the concrete
entry `eEx`, accepted under `cfgF`. -/
theorem geometry_solver_formulas_witness :
    detMOf eEx = 1 - gpOf eEx ^ 2 - gxOf eEx ^ 2 :=
  (geometry_solver_formulas zeroRender zeroRender idRestrict cfgF eEx
    (by rw [q_d_ex]; norm_num) (le_of_eq q_d_ex)
    (by rw [flux0_exF]; norm_num) not_condOutside_exF not_condLowFlux_exF
    not_condBadHLR_ex).2.2.2.2.1

/-- C4: for every accepted entry the stamp is addressed by
`center pixel = ceil(offset)` with the bottom-left field pixel at (1,1),
half sizes `ceil(half extent / pixel_scale)`, dimensions `2·half+1`
(hence odd and at least 1), and the renderer receives the sub-pixel
shift `(offset - (pixel - 0.5))·pixel_scale` through the `xc`/`yc`
parameters. -/
theorem stamp_addressing {E : Type} [AddCommGroup E] [Module ℝ E]
    (rNo rPsf : Params → Bounds → E) (restrict : Bounds → E → E)
    (cfg : Config) (e : Entry) (pr : StampResult E)
    (hps : 0 < cfg.pixel_scale) (hfwhm : 0 ≤ cfg.psf_fwhm)
    (hOk : processEntry rNo rPsf restrict cfg e = .ok pr) :
    pr.bbox = ⟨xpixelsOf cfg e - xhalfOf cfg e,
               xpixelsOf cfg e + xhalfOf cfg e,
               ypixelsOf cfg e - yhalfOf cfg e,
               ypixelsOf cfg e + yhalfOf cfg e⟩
    ∧ xpixelsOf cfg e = ⌈xoffsetOf cfg e⌉
    ∧ ypixelsOf cfg e = ⌈yoffsetOf cfg e⌉
    ∧ xhalfOf cfg e = ⌈halfW cfg e / cfg.pixel_scale⌉
    ∧ yhalfOf cfg e = ⌈halfH cfg e / cfg.pixel_scale⌉
    ∧ pr.bbox.xmax - pr.bbox.xmin + 1 = 2 * xhalfOf cfg e + 1
    ∧ pr.bbox.ymax - pr.bbox.ymin + 1 = 2 * yhalfOf cfg e + 1
    ∧ Odd (pr.bbox.xmax - pr.bbox.xmin + 1)
    ∧ Odd (pr.bbox.ymax - pr.bbox.ymin + 1)
    ∧ 1 ≤ pr.bbox.xmax - pr.bbox.xmin + 1
    ∧ 1 ≤ pr.bbox.ymax - pr.bbox.ymin + 1
    ∧ pr.params.xc =
        (xoffsetOf cfg e - ((xpixelsOf cfg e : ℝ) - 0.5)) * cfg.pixel_scale
    ∧ pr.params.yc =
        (yoffsetOf cfg e - ((ypixelsOf cfg e : ℝ) - 0.5)) * cfg.pixel_scale := by
  unfold processEntry at hOk
  split_ifs at hOk with h1 h2 h3 h4 h5 <;> try exact Except.noConfusion hOk
  injection hOk with hOk
  subst hOk
  have hrcut : 0 < rcutOf cfg e := lt_of_not_le h4
  have hrpad : 0 ≤ rpadOf cfg e := by
    unfold rpadOf
    split_ifs with hc
    · apply mul_nonneg _ (Real.sqrt_nonneg _)
      unfold r0psf
      apply div_nonneg (by linarith) (Real.sqrt_nonneg _)
    · exact le_refl 0
  have hxW : 0 ≤ halfW cfg e := by
    unfold halfW halfW0
    have := Real.sqrt_nonneg
      (((1 + gpOf e) * (1 + gpOf e) + gxOf e * gxOf e) / detMOf e)
    nlinarith
  have hyH : 0 ≤ halfH cfg e := by
    unfold halfH halfH0
    have := Real.sqrt_nonneg
      (((1 - gpOf e) * (1 - gpOf e) + gxOf e * gxOf e) / detMOf e)
    nlinarith
  have hxh : 0 ≤ xhalfOf cfg e := by
    unfold xhalfOf
    exact Int.ceil_nonneg (div_nonneg hxW (le_of_lt hps))
  have hyh : 0 ≤ yhalfOf cfg e := by
    unfold yhalfOf
    exact Int.ceil_nonneg (div_nonneg hyH (le_of_lt hps))
  have hbb : (acceptResult rNo rPsf restrict cfg e).bbox = bboxOf cfg e := rfl
  refine ⟨rfl, rfl, rfl, rfl, rfl, ?_, ?_, ?_, ?_, ?_, ?_, rfl, rfl⟩
  · rw [hbb]; simp only [bboxOf]; ring
  · rw [hbb]; simp only [bboxOf]; ring
  · exact ⟨xhalfOf cfg e, by rw [hbb]; simp only [bboxOf]; ring⟩
  · exact ⟨yhalfOf cfg e, by rw [hbb]; simp only [bboxOf]; ring⟩
  · rw [hbb]; simp only [bboxOf]; omega
  · rw [hbb]; simp only [bboxOf]; omega

/-- Witness for C4: the concrete accepted entry `eEx` has an odd stamp
width and positive stamp height. -/
theorem stamp_addressing_witness :
    Odd (resEx.bbox.xmax - resEx.bbox.xmin + 1)
    ∧ 1 ≤ resEx.bbox.ymax - resEx.bbox.ymin + 1 := by
  have hOk : processEntry zeroRender zeroRender idRestrict cfgF eEx =
      .ok resEx := by
    rw [processEntry_exF]
    rfl
  have h := stamp_addressing zeroRender zeroRender idRestrict cfgF eEx
    resEx (by rw [show cfgF.pixel_scale = 10 from rfl]; norm_num)
    (by rw [show cfgF.psf_fwhm = (20 : ℝ) from rfl]; norm_num) hOk
  exact ⟨h.2.2.2.2.2.2.2.1, h.2.2.2.2.2.2.2.2.2.2.1⟩

/-- The inner finite-difference loop renders exactly two stamps per step,
so `2·order` in total for one varied parameter. -/
theorem fdRenderList_length (p : Params) (n : ParamName) (delta : ℝ) :
    ∀ k : ℕ, (fdRenderList p n delta k).length = 2 * k := by
  have step : ∀ k : ℕ, fdRenderList p n delta (k + 1) =
      fdRenderList p n delta k ++
        [setP p n (getP p n + ((k : ℝ) + 1) * delta),
         setP p n (getP p n - ((k : ℝ) + 1) * delta)] := by
    intro k
    unfold fdRenderList
    rw [List.range_succ, List.foldl_append]
    rfl
  intro k
  induction k with
  | zero => rfl
  | succ k ih =>
      rw [step k, List.length_append, ih]
      simp
      ring

/-- C3: for each of the five perturbation targets, taken in the fixed
order xc, yc, hlr, g1, g2 with their own step sizes, the derivative
image of order k is the sum over s = 1..k of
`(c_s/δ)·(render(p+sδ) - render(p-sδ))` with coefficients {1/2} for
order 1, {2/3, -1/12} for order 2, {3/4, -3/20, 1/60} for order 3 and
{4/5, -1/5, 4/105, -1/280} for order 4, every intermediate render using
the PSF-convolved renderer. -/
theorem fd_engine_coefficients {E : Type} [AddCommGroup E] [Module ℝ E]
    (render : Params → E) (rNo rPsf : Params → Bounds → E)
    (cfg : Config) (p : Params) (n : ParamName) (delta : ℝ) (b : Bounds)
    (hd : cfg.derivs = true) :
    fdImage render p n delta 1 =
      (1 / 2 / delta) • (render (setP p n (getP p n + 1 * delta)) -
        render (setP p n (getP p n - 1 * delta)))
    ∧ fdImage render p n delta 2 =
      (2 / 3 / delta) • (render (setP p n (getP p n + 1 * delta)) -
        render (setP p n (getP p n - 1 * delta)))
      + (-1 / 12 / delta) • (render (setP p n (getP p n + 2 * delta)) -
        render (setP p n (getP p n - 2 * delta)))
    ∧ fdImage render p n delta 3 =
      (3 / 4 / delta) • (render (setP p n (getP p n + 1 * delta)) -
        render (setP p n (getP p n - 1 * delta)))
      + (-3 / 20 / delta) • (render (setP p n (getP p n + 2 * delta)) -
        render (setP p n (getP p n - 2 * delta)))
      + (1 / 60 / delta) • (render (setP p n (getP p n + 3 * delta)) -
        render (setP p n (getP p n - 3 * delta)))
    ∧ fdImage render p n delta 4 =
      (4 / 5 / delta) • (render (setP p n (getP p n + 1 * delta)) -
        render (setP p n (getP p n - 1 * delta)))
      + (-1 / 5 / delta) • (render (setP p n (getP p n + 2 * delta)) -
        render (setP p n (getP p n - 2 * delta)))
      + (4 / 105 / delta) • (render (setP p n (getP p n + 3 * delta)) -
        render (setP p n (getP p n - 3 * delta)))
      + (-1 / 280 / delta) • (render (setP p n (getP p n + 4 * delta)) -
        render (setP p n (getP p n - 4 * delta)))
    ∧ variations cfg p =
      [(.xc, cfg.pixel_scale / 3), (.yc, cfg.pixel_scale / 3),
       (.hlr, 0.05 * p.hlr), (.g1, 0.03), (.g2, 0.03)]
    ∧ stampCube rNo rPsf cfg p b =
      [rNo p b, rPsf p b] ++
        (variations cfg p).map
          (fun v => fdImage (fun np => rPsf np b) p v.1 v.2 cfg.derivsOrder) := by
  refine ⟨?_, ?_, ?_, ?_, rfl, ?_⟩
  · unfold fdImage fdCoefs
    simp [List.range_succ]
    try norm_num [add_assoc]
  · unfold fdImage fdCoefs
    simp [List.range_succ]
    try norm_num [add_assoc]
  · unfold fdImage fdCoefs
    simp [List.range_succ]
    try norm_num [add_assoc]
  · unfold fdImage fdCoefs
    simp [List.range_succ]
    try norm_num [add_assoc]
  · unfold stampCube
    rw [hd]
    simp

/-- Witness for C3: the order-2 stencil evaluated with a trivial
renderer at concrete parameters. -/
theorem fd_engine_coefficients_witness :
    fdImage (fun _ : Params => (0 : ℝ)) pEx ParamName.hlr 1 2 =
      ((2 : ℝ) / 3 / 1) • ((0 : ℝ) - 0) + ((-1 : ℝ) / 12 / 1) • ((0 : ℝ) - 0) :=
  (fd_engine_coefficients (fun _ : Params => (0 : ℝ)) zeroRender
    zeroRender cfgP pEx ParamName.hlr 1 bEx rfl).2.1

/-- Counterexample to C6: with order 2 and parameter `hlr`, the inner
finite-difference loop renders 4 extra stamps for that parameter
(2 per step over 2 steps), not 2 as the claim states. -/
theorem fd_render_count_counterexample :
    (fdRenderList pEx ParamName.hlr 1 2).length = 4
    ∧ (fdRenderList pEx ParamName.hlr 1 2).length ≠ 2 := by
  have h : (fdRenderList pEx ParamName.hlr 1 2).length = 4 := by
    unfold fdRenderList
    rw [List.range_succ, List.foldl_append]
    rfl
  exact ⟨h, by rw [h]; norm_num⟩

/-- C6 (amended): with partials of order k enabled, the engine invokes
the renderer exactly `2·k` extra times per perturbed parameter per
object; for order 2 and parameter `hlr` with step δ that is 4 extra
renders, and the derivative equals
`(2/3)(plus₁−minus₁)/δ − (1/12)(plus₂−minus₂)/δ`. -/
theorem fd_render_count_amended {E : Type} [AddCommGroup E] [Module ℝ E]
    (render : Params → E) (p : Params) (n : ParamName) (delta : ℝ)
    (k : ℕ) :
    (fdRenderList p n delta k).length = 2 * k
    ∧ (fdRenderList p .hlr delta 2).length = 4
    ∧ fdImage render p .hlr delta 2 =
      ((2 : ℝ) / 3 / delta) •
        (render (setP p .hlr (getP p .hlr + 1 * delta)) -
         render (setP p .hlr (getP p .hlr - 1 * delta)))
      - ((1 : ℝ) / 12 / delta) •
        (render (setP p .hlr (getP p .hlr + 2 * delta)) -
         render (setP p .hlr (getP p .hlr - 2 * delta))) := by
  refine ⟨fdRenderList_length p n delta k, fdRenderList_length p .hlr delta 2, ?_⟩
  unfold fdImage fdCoefs
  simp [List.range_succ]
  conv_rhs => rw [sub_eq_add_neg, ← neg_smul]
  norm_num [add_assoc]
  rw [neg_div, neg_smul]

/-- Counterexample to C5: an entry whose computed flux is exactly
`0.5·fcut` is NOT rejected — the flux test uses a strict comparison.
Under `cfgF` (PSF fwhm 20, so the padding step stays inside the domain
of `math.pow` and evaluates, to zero padding) the concrete entry `eEx`
(flux exactly 1 = 0.5·fcut) passes every test and a stamp is emitted
for it. -/
theorem flux_threshold_counterexample :
    flux0 cfgF eEx = 0.5 * fcut
    ∧ ¬ condLowFlux cfgF eEx
    ∧ processEntry zeroRender zeroRender idRestrict cfgF eEx =
        .ok resEx := by
  refine ⟨?_, not_condLowFlux_exF, ?_⟩
  · rw [flux0_exF]
    unfold fcut
    norm_num
  · rw [processEntry_exF]
    rfl

/-- C5 (amended): the flux test rejects exactly the entries with flux
strictly below `0.5·fcut`; an entry with flux exactly `0.5·fcut` passes
the flux test, while an entry with flux 0 (inside the margins) is
rejected by the flux test, before the geometry solver's logarithm or
division is reached. -/
theorem flux_threshold_amended {E : Type} [AddCommGroup E] [Module ℝ E]
    (rNo rPsf : Params → Bounds → E) (restrict : Bounds → E → E)
    (cfg : Config) (e : Entry) (hA : ¬ condOutside cfg e) :
    (flux0 cfg e = 0 →
      processEntry rNo rPsf restrict cfg e = .error .lowFlux)
    ∧ (flux0 cfg e = 0.5 * fcut → ¬ condLowFlux cfg e) := by
  constructor
  · intro h0
    have hB : condLowFlux cfg e := by
      unfold condLowFlux fcut
      rw [h0]
      norm_num
    unfold processEntry
    rw [if_neg hA, if_pos hB]
  · intro hhalf
    unfold condLowFlux
    rw [hhalf]
    exact lt_irrefl _

/-- Witness for C5 (amended): with a zero flux normalization the
concrete entry is rejected by the flux test. -/
theorem flux_threshold_amended_witness :
    processEntry zeroRender zeroRender idRestrict cfg0 eEx =
      .error .lowFlux :=
  (flux_threshold_amended zeroRender zeroRender idRestrict cfg0 eEx
    not_condOutside_ex).1
    (by unfold flux0
        rw [show cfg0.flux_norm = 0 from rfl, zero_mul])

/-- Counterexample to C9: with `sky_level = 0` (the configuration
`cfgF`), the epilogue skips the noise step and writes the field image
only once, so the noise-injected field image is not always among the
outputs. -/
theorem output_writes_counterexample :
    ((pipelineWrites zeroRender zeroRender idRestrict zeroNoise cfgF []
        0).filter WriteEvent.isFieldWrite).length = 1
    ∧ ((pipelineWrites zeroRender zeroRender idRestrict zeroNoise cfgF []
        0).filter WriteEvent.isFieldWrite).length ≠ 2 := by
  have hsky : ¬ (0 < cfgF.sky_level) := by
    rw [show cfgF.sky_level = 0 from rfl]
    norm_num
  have h : ((pipelineWrites zeroRender zeroRender idRestrict zeroNoise
      cfgF [] 0).filter WriteEvent.isFieldWrite).length = 1 := by
    unfold pipelineWrites
    rw [if_neg hsky]
    rfl
  exact ⟨h, by rw [h]; norm_num⟩

/-- C9 (amended): when `sky_level > 0` the pipeline writes the field
image exactly twice — once noiseless and once after noise from the
generator seeded with 123 and parameterized by the sky level scaled by
the exposure count `2·nvisits·sky_level` — followed by the stamp
archive; when `sky_level ≤ 0` the noise-injected write is skipped. -/
theorem output_writes_amended {E : Type} [AddCommGroup E] [Module ℝ E]
    (rNo rPsf : Params → Bounds → E) (restrict : Bounds → E → E)
    (noiseModel : ℕ → ℝ → E → E) (cfg : Config) (cat : List Entry)
    (ambient : ℕ) (hsky : 0 < cfg.sky_level) :
    pipelineWrites rNo rPsf restrict noiseModel cfg cat ambient =
      [.fieldFile (cfg.output ++ "_field.fits")
          (finalField rNo rPsf restrict cfg cat),
       .fieldFile (cfg.output ++ "_noise.fits")
          (noiseModel 123 (2 * (cfg.nvisits : ℝ) * cfg.sky_level)
            (finalField rNo rPsf restrict cfg cat)),
       .stampsFile (cfg.output ++ "_stamps.fits")
          (stampCubes rNo rPsf restrict cfg cat)]
    ∧ ((pipelineWrites rNo rPsf restrict noiseModel cfg cat
        ambient).filter WriteEvent.isFieldWrite).length = 2 := by
  have h : pipelineWrites rNo rPsf restrict noiseModel cfg cat ambient =
      [.fieldFile (cfg.output ++ "_field.fits")
          (finalField rNo rPsf restrict cfg cat),
       .fieldFile (cfg.output ++ "_noise.fits")
          (noiseModel 123 (2 * (cfg.nvisits : ℝ) * cfg.sky_level)
            (finalField rNo rPsf restrict cfg cat)),
       .stampsFile (cfg.output ++ "_stamps.fits")
          (stampCubes rNo rPsf restrict cfg cat)] := by
    unfold pipelineWrites
    rw [if_pos hsky]
    rfl
  refine ⟨h, ?_⟩
  rw [h]
  rfl

/-- Witness for C9 (amended): with sky level 1 the concrete pipeline
writes the field image exactly twice. -/
theorem output_writes_amended_witness :
    ((pipelineWrites zeroRender zeroRender idRestrict zeroNoise cfgN []
        0).filter WriteEvent.isFieldWrite).length = 2 :=
  (output_writes_amended zeroRender zeroRender idRestrict zeroNoise cfgN
    [] 0 (by rw [show cfgN.sky_level = (1 : ℝ) from rfl]; norm_num)).2
